import Mathlib

/-!
Verification of the retrieval-augmented SOR drafting core of the Hillmann_SOR
repository, together with two frontend behaviours (report numbering and the
websocket notification hook).

The backend pipeline (EmbeddingIndex, EvidenceCollector, RetrievalEngine,
PromptAssembler, DraftSynthesizer, BuildingClassifier) is shipped in this
repository only as its design document (the AI Pipeline Flow document, which
contains the `build_rag_query` source and the classification workflow);
those components are therefore modelled here from the specification, staying
faithful to the repository documents wherever they fix a detail (the strict
`> 0.75` confidence gate, the prompt layout, the pgvector cosine index).
The frontend functions (`createReport`, the `useNotifications` websocket
handler) are translated from the TypeScript source.

Similarity and confidence scores are exact rationals.  The arithmetic is
expressed through `mkRat` on numerators/denominators (bridged to `*` and `+`
by `ratMul_eq`/`ratAdd_eq`) so that concrete runs reduce inside the kernel.
-/

/-- Exact product of two rationals, written via `mkRat` so the kernel can
evaluate it; `ratMul_eq` shows it agrees with `*`. -/
def ratMul (a b : ℚ) : ℚ := mkRat (a.num * b.num) (a.den * b.den)

/-- Exact sum of two rationals, written via `mkRat` so the kernel can
evaluate it; `ratAdd_eq` shows it agrees with `+`. -/
def ratAdd (a b : ℚ) : ℚ := mkRat (a.num * b.den + b.num * a.den) (a.den * b.den)

theorem ratMul_eq (a b : ℚ) : ratMul a b = a * b := by
  rw [ratMul, Rat.mul_def, Rat.mkRat_def, dif_neg (Nat.mul_ne_zero a.den_nz b.den_nz)]

theorem ratAdd_eq (a b : ℚ) : ratAdd a b = a + b := by
  rw [ratAdd, Rat.add_def, Rat.mkRat_def, dif_neg (Nat.mul_ne_zero a.den_nz b.den_nz)]

/-- Modelled from the spec: dot product of two score vectors; together with
L2-normalized inputs this is the cosine similarity of section 4.1. -/
def dotProd : List ℚ → List ℚ → ℚ
  | a :: as, b :: bs => ratAdd (ratMul a b) (dotProd as bs)
  | _, _ => 0

/-- Modelled from the spec: cosine similarity, computed as dot product over
L2-normalized vectors (EmbeddingIndex side-effect notes, section 4.1). -/
def cosineSim (a b : List ℚ) : ℚ := dotProd a b

/-- An element tagged with its insertion index and its ranking key
(similarity or confidence).  Used to make every ranking in the pipeline
stable: ties on the key are broken by insertion order. -/
structure Ranked (α : Type) where
  idx : ℕ
  key : ℚ
  val : α
deriving DecidableEq

/-- Ranking order: higher key first; on equal keys, earlier insertion
index first. -/
def rankedLE {α : Type} (a b : Ranked α) : Prop :=
  b.key < a.key ∨ (a.key = b.key ∧ a.idx ≤ b.idx)

instance {α : Type} : DecidableRel (@rankedLE α) := fun a b => by
  unfold rankedLE; infer_instance

instance {α : Type} : IsTotal (Ranked α) rankedLE := by
  constructor
  intro a b
  rcases lt_trichotomy a.key b.key with h | h | h
  · exact .inr (.inl h)
  · rcases Nat.le_total a.idx b.idx with h' | h'
    · exact .inl (.inr ⟨h, h'⟩)
    · exact .inr (.inr ⟨h.symm, h'⟩)
  · exact .inl (.inl h)

instance {α : Type} : IsTrans (Ranked α) rankedLE := by
  constructor
  intro a b c hab hbc
  rcases hab with hab | ⟨hab1, hab2⟩
  · rcases hbc with hbc | ⟨hbc1, hbc2⟩
    · exact .inl (lt_trans hbc hab)
    · exact .inl (hbc1 ▸ hab)
  · rcases hbc with hbc | ⟨hbc1, hbc2⟩
    · exact .inl (hab1.symm ▸ hbc)
    · exact .inr ⟨hab1.trans hbc1, le_trans hab2 hbc2⟩

/-- Stable descending sort on ranked elements (insertion sort under
`rankedLE`). -/
def sortRanked {α : Type} (l : List (Ranked α)) : List (Ranked α) :=
  l.insertionSort rankedLE

/-- Tag each list element with its position and its ranking key. -/
def rankBy {α : Type} (key : α → ℚ) (l : List α) : List (Ranked α) :=
  l.enum.map fun p => ⟨p.1, key p.2, p.2⟩

/-- Keep the `k` best-ranked elements of `l` under `key`, ties resolved by
original position, returned best first. -/
def topKStable {α : Type} (key : α → ℚ) (k : ℕ) (l : List α) : List α :=
  ((sortRanked (rankBy key l)).take k).map Ranked.val

/-- Strict version of the ranking order; it holds pairwise along any sorted
ranking whose insertion indices are distinct. -/
def strictRank {α : Type} (a b : Ranked α) : Prop :=
  b.key < a.key ∨ (a.key = b.key ∧ a.idx < b.idx)

theorem sortRanked_sorted {α : Type} (l : List (Ranked α)) :
    List.Sorted rankedLE (sortRanked l) :=
  List.sorted_insertionSort rankedLE l

theorem sortRanked_perm {α : Type} (l : List (Ranked α)) :
    (sortRanked l).Perm l :=
  List.perm_insertionSort rankedLE l

theorem pairwise_strict_of_sorted_ne {α : Type} {l : List (Ranked α)}
    (h1 : List.Pairwise rankedLE l) (h2 : List.Pairwise (fun a b => a.idx ≠ b.idx) l) :
    List.Pairwise strictRank l := by
  refine (h1.and h2).imp ?_
  rintro a b ⟨hle | ⟨heq, hle⟩, hne⟩
  · exact .inl hle
  · exact .inr ⟨heq, lt_of_le_of_ne hle hne⟩

theorem pairwise_fst_lt_enum {β : Type} (l : List β) :
    l.enum.Pairwise (fun p q => p.1 < q.1) := by
  have h := List.pairwise_lt_range l.length
  rw [← List.enum_map_fst l] at h
  exact List.pairwise_map.mp h

theorem pairwise_idx_ne_sortRanked {α β : Type} (f : ℕ × β → Ranked α)
    (hf : ∀ p, (f p).idx = p.1) (ps : List (ℕ × β))
    (hps : ps.Pairwise (fun p q => p.1 < q.1)) :
    (sortRanked (ps.map f)).Pairwise (fun a b => a.idx ≠ b.idx) := by
  have h1 : (ps.map f).Pairwise (fun a b => a.idx ≠ b.idx) := by
    refine List.pairwise_map.mpr (hps.imp ?_)
    intro p q h
    rw [hf p, hf q]
    exact Nat.ne_of_lt h
  exact ((sortRanked_perm (ps.map f)).pairwise_iff fun h => h.symm).mpr h1

theorem pairwise_strict_sortRanked {α β : Type} (f : ℕ × β → Ranked α)
    (hf : ∀ p, (f p).idx = p.1) (ps : List (ℕ × β))
    (hps : ps.Pairwise (fun p q => p.1 < q.1)) :
    (sortRanked (ps.map f)).Pairwise strictRank :=
  pairwise_strict_of_sorted_ne (sortRanked_sorted (ps.map f))
    (pairwise_idx_ne_sortRanked f hf ps hps)

theorem mem_sortRanked_map {α β : Type} {f : ℕ × β → Ranked α} {ps : List (ℕ × β)}
    {r : Ranked α} (h : r ∈ sortRanked (ps.map f)) : ∃ p ∈ ps, f p = r := by
  have := (sortRanked_perm (ps.map f)).mem_iff.mp h
  exact List.mem_map.mp this

theorem topKStable_length_le {α : Type} (key : α → ℚ) (k : ℕ) (l : List α) :
    (topKStable key k l).length ≤ k := by
  rw [topKStable, List.length_map]
  exact List.length_take_le k _

theorem topKStable_length {α : Type} (key : α → ℚ) (k : ℕ) (l : List α) :
    (topKStable key k l).length = min k l.length := by
  rw [topKStable, List.length_map, List.length_take, sortRanked,
    List.length_insertionSort, rankBy, List.length_map, List.enum_length]

theorem key_of_mem_sortRanked_rankBy {α : Type} {key : α → ℚ} {l : List α}
    {r : Ranked α} (h : r ∈ sortRanked (rankBy key l)) : r.key = key r.val := by
  obtain ⟨p, _, hp⟩ := mem_sortRanked_map h
  rw [← hp]

theorem topKStable_split {α : Type} (key : α → ℚ) (k : ℕ) (l : List α) :
    ∃ rest : List α, (topKStable key k l ++ rest).Perm l ∧
      ∀ x ∈ topKStable key k l, ∀ y ∈ rest, key y ≤ key x := by
  classical
  set s := sortRanked (rankBy key l) with hs
  refine ⟨(s.drop k).map Ranked.val, ?_, ?_⟩
  · have h1 : topKStable key k l ++ (s.drop k).map Ranked.val = s.map Ranked.val := by
      rw [topKStable, ← hs, ← List.map_append, List.take_append_drop]
    have h2 : (s.map Ranked.val).Perm ((rankBy key l).map Ranked.val) :=
      (sortRanked_perm (rankBy key l)).map Ranked.val
    have h3 : (rankBy key l).map Ranked.val = l := by
      rw [rankBy, List.map_map]
      exact List.enum_map_snd l
    rw [h1]
    rw [h3] at h2
    exact h2
  · intro x hx y hy
    obtain ⟨rx, hrx, hrxe⟩ := List.mem_map.mp hx
    obtain ⟨ry, hry, hrye⟩ := List.mem_map.mp hy
    have hxs : rx ∈ s := List.take_subset k s hrx
    have hys : ry ∈ s := List.drop_subset k s hry
    have hkx : rx.key = key x := by rw [← hrxe]; exact key_of_mem_sortRanked_rankBy hxs
    have hky : ry.key = key y := by rw [← hrye]; exact key_of_mem_sortRanked_rankBy hys
    have hsorted : List.Pairwise rankedLE s := sortRanked_sorted (rankBy key l)
    have hcross : ∀ a ∈ s.take k, ∀ b ∈ s.drop k, rankedLE a b := by
      have := (List.take_append_drop k s).symm ▸ hsorted
      exact (List.pairwise_append.mp this).2.2
    have hr := hcross rx hrx ry hry
    rcases hr with hr | ⟨hr, _⟩
    · rw [← hkx, ← hky]; exact le_of_lt hr
    · rw [← hkx, ← hky, hr]

/-- The top-k selection split with its tie-break made explicit: the kept
and dropped elements, annotated with their original positions, permute the
position-annotated input, and every dropped element either has a strictly
lower key than every kept element or ties with it and sits at a strictly
later original position — so on ties the earlier elements are the ones
kept. -/
theorem topKStable_stable_split {α : Type} (key : α → ℚ) (k : ℕ) (l : List α) :
    ∃ kept rest : List (Ranked α),
      topKStable key k l = kept.map Ranked.val ∧
      (kept ++ rest).Perm (rankBy key l) ∧
      (∀ x ∈ kept, x.key = key x.val) ∧
      (∀ y ∈ rest, y.key = key y.val) ∧
      ∀ x ∈ kept, ∀ y ∈ rest,
        y.key < x.key ∨ (x.key = y.key ∧ x.idx < y.idx) := by
  classical
  set s := sortRanked (rankBy key l) with hs
  have hshape : rankBy key l =
      l.enum.map (fun p : ℕ × α => (⟨p.1, key p.2, p.2⟩ : Ranked α)) := rfl
  have hstrict : s.Pairwise strictRank := by
    rw [hs, hshape]
    exact pairwise_strict_sortRanked _ (fun _ => rfl) _ (pairwise_fst_lt_enum l)
  refine ⟨s.take k, s.drop k, rfl, ?_, ?_, ?_, ?_⟩
  · rw [List.take_append_drop]
    exact sortRanked_perm (rankBy key l)
  · intro x hx
    exact key_of_mem_sortRanked_rankBy (List.take_subset k s hx)
  · intro y hy
    exact key_of_mem_sortRanked_rankBy (List.drop_subset k s hy)
  · have hsp : List.Pairwise strictRank (s.take k ++ s.drop k) :=
      (List.take_append_drop k s).symm ▸ hstrict
    exact fun x hx y hy => (List.pairwise_append.mp hsp).2.2 x hx y hy

/-- Modelled from the spec: a stored embedding record (section 3,
EmbeddingRecord); the backing store implementation is absent from the
repository, which only ships the `historical_sors` pgvector schema. -/
structure EmbeddingRecord where
  id : String
  section_type : String
  source_label : String
  content : String
  vector : List ℚ
  tags : List String
  quality_score : ℚ
  is_exemplar : Bool
deriving DecidableEq

/-- Modelled from the spec: a per-query retrieval hit (section 3,
RetrievalResult). -/
structure RetrievalResult where
  record_id : String
  content : String
  similarity : ℚ
  section_type : String
deriving DecidableEq

/-- Modelled from the spec: the error raised by `EmbeddingIndex.query` when
the filtered candidate set is empty; callers must handle it (section 4.1). -/
inductive QueryError where
  | emptyIndex
deriving DecidableEq

/-- Modelled from the spec: the in-memory embedding index (section 4.1);
`records` keeps insertion order, which breaks similarity ties. -/
structure EmbeddingIndex where
  dim : ℕ
  records : List EmbeddingRecord

/-- Modelled from the spec: bad-input error for `upsert`/`assemble`
(sections 4.1 and 4.4). -/
inductive ValidationError where
  | dimensionMismatch
  | emptyContent
  | unknownSectionType
deriving DecidableEq

/-- Modelled from the spec: `upsert` fails on dimension mismatch or empty
content, otherwise appends the record (section 4.1). -/
def EmbeddingIndex.upsert (idx : EmbeddingIndex) (r : EmbeddingRecord) :
    Except ValidationError EmbeddingIndex :=
  if r.vector.length ≠ idx.dim then .error .dimensionMismatch
  else if r.content = "" then .error .emptyContent
  else .ok ⟨idx.dim, idx.records ++ [r]⟩

/-- Modelled from the spec: `delete` is idempotent and ignores unknown ids
(section 4.1). -/
def EmbeddingIndex.delete (idx : EmbeddingIndex) (record_id : String) : EmbeddingIndex :=
  ⟨idx.dim, idx.records.filter fun r => r.id ≠ record_id⟩

/-- Does a record pass the optional section-type filter of a query? -/
def sectionMatches (filt : Option String) (r : EmbeddingRecord) : Bool :=
  match filt with
  | none => true
  | some s => r.section_type == s

/-- The filtered candidate set of a query, each record paired with its
insertion index. -/
def candidatesFor (idx : EmbeddingIndex) (filt : Option String) :
    List (ℕ × EmbeddingRecord) :=
  idx.records.enum.filter fun p => sectionMatches filt p.2

/-- Candidates ranked by cosine similarity to the query vector, descending,
ties broken by insertion index. -/
def rankCandidates (v : List ℚ) (cands : List (ℕ × EmbeddingRecord)) :
    List (Ranked EmbeddingRecord) :=
  sortRanked (cands.map fun p => ⟨p.1, cosineSim v p.2.vector, p.2⟩)

/-- Package one ranked candidate as a RetrievalResult. -/
def toResult (k : Ranked EmbeddingRecord) : RetrievalResult :=
  ⟨k.val.id, k.val.content, k.key, k.val.section_type⟩

/-- The ordered result sequence of a query before the empty-set check. -/
def queryResults (idx : EmbeddingIndex) (v : List ℚ) (filt : Option String)
    (top_k : ℕ) : List RetrievalResult :=
  ((rankCandidates v (candidatesFor idx filt)).take top_k).map toResult

/-- Modelled from the spec: `query` returns at most `top_k` results,
filtered to `section_type_filter` if given, sorted by cosine similarity
descending with ties broken by insertion order, and fails with
`EmptyIndexError` only when the filtered candidate set is empty
(section 4.1). -/
def EmbeddingIndex.query (idx : EmbeddingIndex) (v : List ℚ)
    (filt : Option String) (top_k : ℕ) : Except QueryError (List RetrievalResult) :=
  if (candidatesFor idx filt).isEmpty then .error .emptyIndex
  else .ok (queryResults idx v filt top_k)

/-- Modelled from the spec: `retrieve` delegates to `EmbeddingIndex.query`,
filters out results below `min_similarity`, and converts an empty retrieval
into an empty sequence rather than an error (section 4.3; defaults are
`top_k = 5`, `min_similarity = 0`). -/
def retrieve (idx : EmbeddingIndex) (queryVector : List ℚ) (section_type : String)
    (top_k : ℕ) (min_similarity : ℚ) : List RetrievalResult :=
  match idx.query queryVector (some section_type) top_k with
  | .error _ => []
  | .ok rs => rs.filter fun r => min_similarity ≤ r.similarity

/-- One structured condition extracted by the Vision collaborator (AI
Pipeline Flow document, step 2 output shape). -/
structure ObservedCondition where
  category : String
  issue : String
  severity : String
  location : String
deriving DecidableEq

/-- The retrieval-query context of `build_rag_query` (AI Pipeline Flow
document, section 4.1): an optional building type plus observed
conditions. -/
structure RagContext where
  building_type : Option String
  conditions : List ObservedCondition
deriving DecidableEq

/-- Python's `sep.join(parts)`. -/
def joinSep (sep : String) : List String → String
  | [] => ""
  | [p] => p
  | p :: rest => p ++ sep ++ joinSep sep rest

/-- Translated from the `build_rag_query` source in the AI Pipeline Flow
document: a section-type part and a building-type part (defaulting to
"unknown") are always emitted, a conditions part only when conditions are
present, and the parts are joined with single spaces. -/
def build_rag_query (section_type : String) (context : RagContext) : String :=
  let query_parts := ["Section type: " ++ section_type,
    "Building type: " ++ context.building_type.getD "unknown"]
  let query_parts := if context.conditions.isEmpty then query_parts
    else query_parts ++
      ["Conditions observed: " ++ joinSep ", " (context.conditions.map (·.issue))]
  joinSep " " query_parts

/-- The claim's reading of `buildQuery`: the building type concatenated only
if known, mirrored from the specification sentence for comparison against
`build_rag_query`. -/
def buildQueryClaimed (section_type : String) (context : RagContext) : String :=
  joinSep " " (["Section type: " ++ section_type] ++
    (match context.building_type with
      | some b => ["Building type: " ++ b]
      | none => []) ++
    (if context.conditions.isEmpty then []
      else ["Conditions observed: " ++ joinSep ", " (context.conditions.map (·.issue))]))

/-- Modelled from the spec: the tag of the EvidenceItem tagged union
(section 3 and design note on polymorphic variants). -/
inductive EvidenceVariant where
  | imageObservation
  | documentField
  | narrativeText
deriving DecidableEq

/-- Modelled from the spec: a source-traceable evidence item (section 3,
EvidenceItem); `confidence` is optional in 0..1. -/
structure EvidenceItem where
  source_id : String
  variant : EvidenceVariant
  label : String
  content : String
  confidence : Option ℚ
deriving DecidableEq

/-- The structured observation returned by the Vision collaborator (AI
Pipeline Flow document, step 2 output). -/
structure VisionAnalysis where
  filename : String
  description : String
  building_type : String
  conditions : List ObservedCondition
  materials : List String
  safety_issues : List String
  location_clues : List String
deriving DecidableEq

/-- Modelled from the spec: failure of the external Vision collaborator. -/
inductive VisionServiceError where
  | timeout
  | serviceFailure
deriving DecidableEq

/-- Modelled from the spec: failure of the external Document Parser
collaborator. -/
inductive ParseError where
  | timeout
  | corruptedFile
deriving DecidableEq

/-- The structured fields returned by the Document Parser collaborator for
one document (AI Pipeline Flow document, step 3 output). -/
structure ParsedDocument where
  doc_type : String
  doc_date : String
  fields : List (String × String)
deriving DecidableEq

/-- A per-item warning recorded when one collaborator call inside a batch
fails and the item is skipped (section 4.2). -/
structure CollectWarning where
  source_id : String
  message : String
deriving DecidableEq

/-- Modelled from the spec: the evidence items wrapped from one successful
Vision analysis — the description plus one item per distinct condition,
each labeled with the originating filename (section 4.2). -/
def imageItems (image_id : String) (a : VisionAnalysis) : List EvidenceItem :=
  ⟨image_id, .imageObservation, a.filename, a.description, none⟩ ::
    a.conditions.map fun c => ⟨image_id, .imageObservation, a.filename, c.issue, none⟩

/-- Modelled from the spec: the evidence items wrapped from one parsed
document, labeled with document type and date (section 4.2). -/
def docItems (document_id : String) (p : ParsedDocument) : List EvidenceItem :=
  p.fields.map fun f =>
    ⟨document_id, .documentField, p.doc_type ++ " dated " ++ p.doc_date,
      f.1 ++ ": " ++ f.2, none⟩

/-- Modelled from the spec: the narrative evidence — exactly one
NarrativeText item when the narrative is non-empty (section 4.2). -/
def narrativeItems (narrative_text : String) : List EvidenceItem :=
  if narrative_text = "" then []
  else [⟨"narrative", .narrativeText, "inspector narrative", narrative_text, none⟩]

/-- Modelled from the spec: wrap each image id via the Vision collaborator,
in input order; a failing item is skipped with a per-item warning
(section 4.2 and section 7 propagation policy). -/
def collectImages (vision : String → Except VisionServiceError VisionAnalysis) :
    List String → List EvidenceItem × List CollectWarning
  | [] => ([], [])
  | i :: rest =>
    let r := collectImages vision rest
    match vision i with
    | .ok a => (imageItems i a ++ r.1, r.2)
    | .error _ => (r.1, ⟨i, "image analysis failed; item skipped"⟩ :: r.2)

/-- Modelled from the spec: wrap each document id via the Parser
collaborator (scoped to the requested section type), in input order; a
failing item is skipped with a per-item warning (section 4.2). -/
def collectDocuments (docParse : String → String → Except ParseError ParsedDocument)
    (section_type : String) :
    List String → List EvidenceItem × List CollectWarning
  | [] => ([], [])
  | d :: rest =>
    let r := collectDocuments docParse section_type rest
    match docParse section_type d with
    | .ok p => (docItems d p ++ r.1, r.2)
    | .error _ => (r.1, ⟨d, "document parsing failed; item skipped"⟩ :: r.2)

/-- Modelled from the spec: `collect` gathers image observations, document
fields and the narrative, ordered images-then-documents-then-narrative
(section 4.2), together with the per-item warnings for skipped items. -/
def collect (vision : String → Except VisionServiceError VisionAnalysis)
    (docParse : String → String → Except ParseError ParsedDocument)
    (section_type : String) (image_ids document_ids : List String)
    (narrative_text : String) : List EvidenceItem × List CollectWarning :=
  let imgs := collectImages vision image_ids
  let docs := collectDocuments docParse section_type document_ids
  (imgs.1 ++ docs.1 ++ narrativeItems narrative_text, imgs.2 ++ docs.2)

/-- Modelled from the spec: the structured project context of a generation
request (section 3 and the user prompt template). -/
structure ProjectContext where
  project_name : String
  site_name : String
  inspection_date : String
  report_number : ℕ
deriving DecidableEq

/-- Modelled from the spec: the assembled generation request (section 3,
GenerationRequest). -/
structure GenerationRequest where
  section_type : String
  project_context : ProjectContext
  evidence : List EvidenceItem
  exemplars : List RetrievalResult
  instructions : String
deriving DecidableEq

/-- Modelled from the spec: evidence cap of the prompt assembler
(section 4.4, default 20). -/
def MAX_EVIDENCE_ITEMS : ℕ := 20

/-- Modelled from the spec: exemplar cap of the prompt assembler
(section 4.4, default 5). -/
def MAX_EXEMPLARS : ℕ := 5

/-- Modelled from the spec: the fixed enumerated set of recognized section
types (report_sections schema comment in the database documentation). -/
def recognizedSectionTypes : List String :=
  ["executive_summary", "budget", "schedule", "building_status", "safety",
    "recommendations"]

/-- Modelled from the spec: the fixed policy instructions block embedded in
every generation request (section 4.4 and the system prompt of the AI
Pipeline Flow document). -/
def defaultInstructions : String :=
  "Use formal technical language. Use passive voice for observations. " ++
  "Cite the source of every evidence item used. Never state anything not " ++
  "present in the evidence. Flag any inferred claim with appears to or " ++
  "further investigation recommended."

/-- The ranking key used to cap evidence: the declared confidence, absent
confidences ranking lowest. -/
def evidenceKey (e : EvidenceItem) : ℚ := e.confidence.getD 0

/-- Modelled from the spec: `assemble` validates the section type, caps
evidence to the 20 highest-confidence items and exemplars to the 5
highest-similarity items (ties: original order), and attaches the fixed
instructions (section 4.4). -/
def assemble (section_type : String) (project_context : ProjectContext)
    (evidence : List EvidenceItem) (exemplars : List RetrievalResult) :
    Except ValidationError GenerationRequest :=
  if section_type ∈ recognizedSectionTypes then
    .ok ⟨section_type, project_context,
      topKStable evidenceKey MAX_EVIDENCE_ITEMS evidence,
      topKStable (fun r => r.similarity) MAX_EXEMPLARS exemplars,
      defaultInstructions⟩
  else .error .unknownSectionType

/-- A token of the raw LLM response: either plain text or a bracketed
citation marker referencing an evidence label (section 4.5). -/
inductive RawToken where
  | text (s : String)
  | citation (label : String)
deriving DecidableEq

/-- Modelled from the spec: one provenance entry of a draft section
(section 3, DraftSection.evidence_references). -/
structure EvidenceRef where
  ref_type : String
  source_id : String
  label : String
deriving DecidableEq

/-- The reference entry that cites one evidence item. -/
def refOfEvidence (e : EvidenceItem) : EvidenceRef :=
  ⟨(match e.variant with
    | .imageObservation => "image"
    | .documentField => "document"
    | .narrativeText => "narrative"), e.source_id, e.label⟩

/-- The reference entry that cites one retrieved exemplar; exemplars are
cited by their record id. -/
def refOfExemplar (r : RetrievalResult) : EvidenceRef :=
  ⟨"exemplar", r.record_id, r.record_id⟩

/-- Every reference the originating request can support: its evidence items
followed by its exemplars. -/
def knownRefs (req : GenerationRequest) : List EvidenceRef :=
  req.evidence.map refOfEvidence ++ req.exemplars.map refOfExemplar

/-- The source ids of everything supplied to the originating request. -/
def knownSourceIds (req : GenerationRequest) : List String :=
  (knownRefs req).map (·.source_id)

/-- Look a citation marker up among the known references by label. -/
def findRef (req : GenerationRequest) (m : String) : Option EvidenceRef :=
  (knownRefs req).find? fun r => r.label == m

/-- Modelled from the spec: the synthesized draft section (section 3,
DraftSection). -/
structure DraftSection where
  section_type : String
  content : List RawToken
  evidence_references : List EvidenceRef
  confidence : ℚ
deriving DecidableEq

/-- The citation markers occurring in a token sequence. -/
def markersOf (ts : List RawToken) : List String :=
  ts.filterMap fun t =>
    match t with
    | .citation m => some m
    | .text _ => none

/-- Modelled from the spec: the best-effort confidence heuristic — the
fraction of supplied evidence items actually cited (section 4.5). -/
def citedFraction (req : GenerationRequest) (refs : List EvidenceRef) : ℚ :=
  if req.evidence.isEmpty then 0
  else mkRat
    (req.evidence.filter fun e => refs.any fun r => r.source_id == e.source_id).length
    req.evidence.length

/-- The draft content: the raw response with every citation marker that
matches no known evidence item removed. -/
def draftContent (req : GenerationRequest) (raw : List RawToken) : List RawToken :=
  raw.filter fun t =>
    match t with
    | .citation m => (findRef req m).isSome
    | .text _ => true

/-- The provenance entries: one per citation marker that matches a known
evidence item or exemplar, in response order. -/
def draftRefs (req : GenerationRequest) (raw : List RawToken) : List EvidenceRef :=
  raw.filterMap fun t =>
    match t with
    | .citation m => findRef req m
    | .text _ => none

/-- The warnings: one per citation marker that matches no known evidence
item. -/
def synthWarnings (req : GenerationRequest) (raw : List RawToken) : List String :=
  raw.filterMap fun t =>
    match t with
    | .citation m =>
      if (findRef req m).isSome then none
      else some ("unknown citation marker dropped: " ++ m)
    | .text _ => none

/-- Modelled from the spec: the post-processing half of `synthesize` —
given the raw collaborator response, citation markers are matched against
the evidence and exemplars of the originating request; markers with no
known match are dropped from the content, recorded as warnings, and never
turned into a reference (section 4.5). -/
def synthesize (req : GenerationRequest) (raw : List RawToken) :
    DraftSection × List String :=
  (⟨req.section_type, draftContent req raw, draftRefs req raw,
    citedFraction req (draftRefs req raw)⟩, synthWarnings req raw)

/-- A candidate building with its stored feature embedding (AI Pipeline
Flow document, building feature extraction). -/
structure BuildingCandidate where
  building_id : String
  embedding : List ℚ
deriving DecidableEq

/-- Modelled from the spec: one scored building match (section 3,
BuildingMatch). -/
structure BuildingMatch where
  building_id : String
  similarity : ℚ
  is_confident : Bool
deriving DecidableEq

/-- The auto-suggest confidence gate of the building classification
workflow; the AI Pipeline Flow document gates on `confidence > 0.75`. -/
def CONFIDENCE_THRESHOLD : ℚ := mkRat 3 4

/-- Modelled from the spec: `classify` scores the image feature vector
against every candidate building, orders matches by similarity descending
(ties by candidate order), and auto-suggests the top match only when its
similarity clears the confidence gate, which the repository's workflow
document states as `if confidence > 0.75` (strict). -/
def classify (imageFeatureVector : List ℚ) (candidateBuildings : List BuildingCandidate) :
    List BuildingMatch × Option BuildingMatch :=
  let ranked := sortRanked (candidateBuildings.enum.map fun p =>
    ⟨p.1, cosineSim imageFeatureVector p.2.embedding, p.2⟩)
  let scored := ranked.map fun k =>
    ⟨k.val.building_id, k.key, decide (CONFIDENCE_THRESHOLD < k.key)⟩
  let best : Option BuildingMatch :=
    match scored with
    | [] => none
    | m :: _ => if CONFIDENCE_THRESHOLD < m.similarity then some m else none
  (scored, best)

/-- One report row as loaded by the project detail page
(frontend `Report` interface). -/
structure ReportSummary where
  id : String
  report_number : ℕ
  report_date : String
  inspection_date : String
  status : String
deriving DecidableEq

/-- The JSON body posted to `/api/v1/reports` by the project detail page. -/
structure ReportCreatePayload where
  project_id : String
  report_number : ℕ
  report_date : String
  inspection_date : String
deriving DecidableEq

/-- Translated from `createReport` in the project detail page: the posted
report number is the length of the client-side `reports` list plus one. -/
def createReport (project_id : String) (reports : List ReportSummary)
    (report_date inspection_date : String) : ReportCreatePayload :=
  ⟨project_id, reports.length + 1, report_date, inspection_date⟩

/-- One entry of the `useNotifications` hook state (frontend `Notification`
interface; `data` abstracted to its JSON text). -/
structure WsNotification where
  id : String
  ntype : String
  data : String
deriving DecidableEq

/-- An incoming websocket message as seen by `ws.onmessage`: either it
fails `JSON.parse`, or it parses to an object whose `type` field is absent
or is the string `ntype`. -/
inductive WsMessage where
  | malformed
  | parsed (ntype : Option String) (data : String)
deriving DecidableEq

/-- Translated from the `ws.onmessage` handler of `useNotifications`: a
parsed message with a truthy `type` is prepended with a fresh id over the
previous list truncated to its first 9 entries; parse failures and falsy
`type` values (absent field, or the empty string, which is falsy in
JavaScript) leave the list unchanged. -/
def wsOnMessage (msg : WsMessage) (freshId : String)
    (prev : List WsNotification) : List WsNotification :=
  match msg with
  | .malformed => prev
  | .parsed none _ => prev
  | .parsed (some t) d =>
    if t = "" then prev else ⟨freshId, t, d⟩ :: prev.take 9

/-! ### C4 — buildQuery determinism and layout -/

/-- C4 counterexample: with an unknown building type, `build_rag_query`
still emits a building-type part (with the literal "unknown"), so the
query text is not the concatenation `section type label, then the building
type if known` that the claim describes. -/
theorem build_rag_query_unknown_counterexample :
    build_rag_query "executive_summary" ⟨none, []⟩ =
      "Section type: executive_summary Building type: unknown" ∧
    buildQueryClaimed "executive_summary" ⟨none, []⟩ =
      "Section type: executive_summary" ∧
    build_rag_query "executive_summary" ⟨none, []⟩ ≠
      buildQueryClaimed "executive_summary" ⟨none, []⟩ := by
  refine ⟨rfl, rfl, ?_⟩
  decide

/-- C4 (amended): `build_rag_query` is a pure deterministic construction —
identical `(section_type, context)` inputs give byte-identical output —
built, in fixed order, from the section type label, then the building type
(the literal "unknown" standing in when it is not known), then a
comma-joined list of issue descriptors when conditions are present, the
parts space-joined. -/
theorem build_rag_query_deterministic_layout (st : String) (ctx : RagContext) :
    build_rag_query st ctx =
      joinSep " " (["Section type: " ++ st,
        "Building type: " ++ ctx.building_type.getD "unknown"] ++
        (if ctx.conditions.isEmpty then []
          else ["Conditions observed: " ++
            joinSep ", " (ctx.conditions.map (·.issue))])) ∧
    (ctx.conditions.isEmpty = true →
      build_rag_query st ctx =
        "Section type: " ++ st ++
          (" Building type: " ++ ctx.building_type.getD "unknown")) ∧
    ∀ st' ctx', st = st' → ctx = ctx' →
      build_rag_query st ctx = build_rag_query st' ctx' := by
  refine ⟨?_, ?_, ?_⟩
  · cases h : ctx.conditions.isEmpty <;> simp [build_rag_query, h]
  · intro h
    simp only [build_rag_query, h, if_true, joinSep, String.append_assoc]
    rw [← String.append_assoc " " "Building type: " (ctx.building_type.getD "unknown")]
    rfl
  · rintro st' ctx' rfl rfl
    rfl

/-- C4 witness: with a known building type and no conditions the query is
the two space-joined parts in fixed order. -/
theorem build_rag_query_deterministic_layout_witness :
    build_rag_query "budget" ⟨some "commercial", []⟩ =
      "Section type: " ++ "budget" ++ (" Building type: " ++ "commercial") :=
  (build_rag_query_deterministic_layout "budget" ⟨some "commercial", []⟩).2.1
    (by decide)

/-! ### C9 — client-side report numbering -/

/-- C9: the project detail page posts `report_number = reports.length + 1`:
the number depends only on the length of the fetched list (two clients that
loaded equally long lists post the same number), and it can collide with a
report number already present in the list, so it is not derived from the
existing maximum and is not guaranteed unique across concurrent creators. -/
theorem createReport_number_from_length (pid : String) (rs : List ReportSummary)
    (rd idt : String) :
    (createReport pid rs rd idt).report_number = rs.length + 1 ∧
    (∀ rs' : List ReportSummary, rs.length = rs'.length →
      (createReport pid rs rd idt).report_number =
        (createReport pid rs' rd idt).report_number) ∧
    ∃ rs0 : List ReportSummary, ∃ r0 ∈ rs0,
      r0.report_number = (createReport pid rs0 rd idt).report_number := by
  refine ⟨rfl, ?_, ?_⟩
  · intro rs' h
    simp [createReport, h]
  · exact ⟨[⟨"r1", 2, rd, idt, "draft"⟩], ⟨"r1", 2, rd, idt, "draft"⟩,
      by simp, rfl⟩

/-- C9 witness: two clients whose fetched lists have equal length (here two
different singleton lists) post the same report number. -/
theorem createReport_number_from_length_witness :
    (createReport "p1" [⟨"a", 1, "d", "i", "draft"⟩] "d" "i").report_number =
      (createReport "p1" [⟨"b", 7, "d", "i", "final"⟩] "d" "i").report_number :=
  (createReport_number_from_length "p1" [⟨"a", 1, "d", "i", "draft"⟩] "d" "i").2.1
    [⟨"b", 7, "d", "i", "final"⟩] rfl

/-! ### C10 — websocket notification list -/

/-- C10 counterexample: a websocket message that parses as JSON *with* a
`type` field — the empty string, which is falsy in JavaScript — leaves the
notification list unchanged instead of being prepended. -/
theorem wsOnMessage_empty_type_counterexample :
    wsOnMessage (.parsed (some "") "payload") "n1" [] = [] ∧
    wsOnMessage (.parsed (some "") "payload") "n1" [] ≠
      [⟨"n1", "", "payload"⟩] := by
  refine ⟨rfl, ?_⟩
  decide

/-- C10 (amended): the notification list never exceeds 10 entries and is
newest first — a message that parses as JSON with a *truthy* (non-empty)
`type` field is prepended with a fresh id over the previous list truncated
to its first 9 entries, while parse failures, messages without a `type`
field, and messages whose `type` is the falsy empty string leave the list
unchanged. -/
theorem wsOnMessage_invariant (msg : WsMessage) (freshId : String)
    (prev : List WsNotification) (h : prev.length ≤ 10) :
    (wsOnMessage msg freshId prev).length ≤ 10 ∧
    (∀ t d, msg = .parsed (some t) d → t ≠ "" →
      wsOnMessage msg freshId prev = ⟨freshId, t, d⟩ :: prev.take 9) ∧
    (msg = .malformed → wsOnMessage msg freshId prev = prev) ∧
    (∀ d, msg = .parsed none d → wsOnMessage msg freshId prev = prev) ∧
    (∀ d, msg = .parsed (some "") d → wsOnMessage msg freshId prev = prev) := by
  cases msg with
  | malformed => exact ⟨h, by rintro t d ⟨⟩, fun _ => rfl, by rintro d ⟨⟩, by rintro d ⟨⟩⟩
  | parsed ot d0 =>
    cases ot with
    | none => exact ⟨h, by rintro t d ⟨⟩, by rintro ⟨⟩, fun _ _ => rfl, by rintro d ⟨⟩⟩
    | some t0 =>
      by_cases ht : t0 = ""
      · subst ht
        refine ⟨?_, ?_, by rintro ⟨⟩, by rintro d ⟨⟩, fun _ _ => rfl⟩
        · exact h
        · rintro t d ⟨⟩ hne
          exact absurd rfl hne
      · refine ⟨?_, ?_, by rintro ⟨⟩, by rintro d ⟨⟩, by rintro d ⟨⟩; exact absurd rfl ht⟩
        · have : (wsOnMessage (.parsed (some t0) d0) freshId prev) =
            ⟨freshId, t0, d0⟩ :: prev.take 9 := by
            simp [wsOnMessage, ht]
          rw [this, List.length_cons]
          exact Nat.succ_le_succ (List.length_take_le 9 prev)
        · rintro t d ⟨⟩ _
          simp [wsOnMessage, ht]

/-- C10 witness: a parsed message with the non-empty type
"report_created" is prepended onto an empty list. -/
theorem wsOnMessage_invariant_witness :
    wsOnMessage (.parsed (some "report_created") "x") "n1" [] =
      [⟨"n1", "report_created", "x"⟩] :=
  (wsOnMessage_invariant (.parsed (some "report_created") "x") "n1" []
    (by decide)).2.1 "report_created" "x" rfl (by decide)

/-! ### C2 — building classification confidence gate -/

/-- C2 counterexample: a candidate whose similarity is exactly the 0.75
threshold is scored `is_confident = false` and yields no auto-suggested
`best`, so the threshold is strict, not inclusive. -/
theorem classify_threshold_counterexample :
    (classify [mkRat 1 1] [⟨"A", [mkRat 3 4]⟩]).1 = [⟨"A", mkRat 3 4, false⟩] ∧
    ((classify [mkRat 1 1] [⟨"A", [mkRat 3 4]⟩]).1.head?.map (·.similarity)) =
      some CONFIDENCE_THRESHOLD ∧
    (classify [mkRat 1 1] [⟨"A", [mkRat 3 4]⟩]).2 = none := by
  decide

/-- C2 (amended): `best` is present exactly when the top match's similarity
is strictly greater than CONFIDENCE_THRESHOLD (0.75), as the repository's
classification workflow document states (`if confidence > 0.75`); at a top
similarity less than or equal to the threshold — in particular exactly
0.75 — `best` is absent. -/
theorem classify_best_gate (v : List ℚ) (cands : List BuildingCandidate)
    (m : BuildingMatch) (ms : List BuildingMatch)
    (h : (classify v cands).1 = m :: ms) :
    ((classify v cands).2 =
      if CONFIDENCE_THRESHOLD < m.similarity then some m else none) ∧
    (CONFIDENCE_THRESHOLD < m.similarity → (classify v cands).2 = some m) ∧
    (m.similarity ≤ CONFIDENCE_THRESHOLD → (classify v cands).2 = none) := by
  have hbest : (classify v cands).2 =
      match (classify v cands).1 with
      | [] => none
      | m :: _ => if CONFIDENCE_THRESHOLD < m.similarity then some m else none := rfl
  rw [h] at hbest
  refine ⟨hbest, ?_, ?_⟩
  · intro hlt
    rw [hbest]
    exact if_pos hlt
  · intro hle
    rw [hbest]
    exact if_neg (not_lt.mpr hle)

/-- C2 witness: a single candidate at similarity 0.89 clears the strict
gate and is auto-suggested. -/
theorem classify_best_gate_witness :
    (classify [mkRat 1 1] [⟨"B", [mkRat 89 100]⟩]).2 =
      some ⟨"B", mkRat 89 100, true⟩ :=
  (classify_best_gate [mkRat 1 1] [⟨"B", [mkRat 89 100]⟩]
    ⟨"B", mkRat 89 100, true⟩ [] (by decide)).2.1 (by decide)

/-! ### C3 — query ordering, filtering and truncation -/

theorem candidatesFor_pairwise (idx : EmbeddingIndex) (filt : Option String) :
    (candidatesFor idx filt).Pairwise (fun p q => p.1 < q.1) :=
  List.Pairwise.sublist (List.filter_sublist _) (pairwise_fst_lt_enum idx.records)

theorem rankCandidates_pairwise_strict (idx : EmbeddingIndex) (v : List ℚ)
    (filt : Option String) :
    (rankCandidates v (candidatesFor idx filt)).Pairwise strictRank := by
  rw [rankCandidates]
  exact pairwise_strict_sortRanked
    (fun p : ℕ × EmbeddingRecord => ⟨p.1, cosineSim v p.2.vector, p.2⟩)
    (fun _ => rfl) _ (candidatesFor_pairwise idx filt)

theorem query_ok_eq {idx : EmbeddingIndex} {v : List ℚ} {filt : Option String}
    {k : ℕ} {res : List RetrievalResult}
    (h : EmbeddingIndex.query idx v filt k = .ok res) :
    res = queryResults idx v filt k := by
  rw [EmbeddingIndex.query] at h
  split at h
  · exact absurd h (by simp)
  · injection h with h
    exact h.symm

theorem mem_queryResults {idx : EmbeddingIndex} {v : List ℚ} {filt : Option String}
    {k : ℕ} {r : RetrievalResult} (h : r ∈ queryResults idx v filt k) :
    ∃ rec ∈ idx.records, sectionMatches filt rec = true ∧
      r = ⟨rec.id, rec.content, cosineSim v rec.vector, rec.section_type⟩ := by
  rw [queryResults] at h
  obtain ⟨kr, hkr, rfl⟩ := List.mem_map.mp h
  have hkr' : kr ∈ rankCandidates v (candidatesFor idx filt) :=
    List.take_subset _ _ hkr
  rw [rankCandidates] at hkr'
  obtain ⟨p, hp, rfl⟩ := mem_sortRanked_map hkr'
  rw [candidatesFor] at hp
  have hf := List.mem_filter.mp hp
  have hrec : p.2 ∈ idx.records := by
    have h2 := List.mem_map_of_mem Prod.snd hf.1
    rwa [List.enum_map_snd] at h2
  exact ⟨p.2, hrec, hf.2, rfl⟩

/-- C3: a successful `query` returns at most `top_k` results, only records
passing the section-type filter, ordered by similarity descending; the
underlying ranking is strictly descending under `strictRank`, whose tie
component is the record insertion index. -/
theorem query_ordering (idx : EmbeddingIndex) (v : List ℚ) (filt : Option String)
    (k : ℕ) (res : List RetrievalResult)
    (h : EmbeddingIndex.query idx v filt k = .ok res) :
    res.length ≤ k ∧
    (∀ s, filt = some s → ∀ r ∈ res, r.section_type = s) ∧
    res.Pairwise (fun a b => b.similarity ≤ a.similarity) ∧
    (rankCandidates v (candidatesFor idx filt)).Pairwise strictRank := by
  obtain rfl := query_ok_eq h
  refine ⟨?_, ?_, ?_, rankCandidates_pairwise_strict idx v filt⟩
  · rw [queryResults, List.length_map]
    exact List.length_take_le _ _
  · rintro s rfl r hr
    obtain ⟨rec, _, hmatch, rfl⟩ := mem_queryResults hr
    rw [sectionMatches] at hmatch
    exact eq_of_beq hmatch
  · have ht : ((rankCandidates v (candidatesFor idx filt)).take k).Pairwise strictRank :=
      List.Pairwise.sublist (List.take_sublist k _)
        (rankCandidates_pairwise_strict idx v filt)
    rw [queryResults]
    refine List.pairwise_map.mpr (ht.imp ?_)
    rintro a b (hlt | ⟨heq, _⟩)
    · exact le_of_lt hlt
    · exact le_of_eq heq.symm

/-- A three-record index whose similarities to the witness query vector are
0.92, 0.45 and 0.23. -/
def idxC3 : EmbeddingIndex :=
  ⟨1, [⟨"h1", "building_status", "SOR 2025-01", "Building B was observed",
        [mkRat 92 100], [], mkRat 9 10, true⟩,
      ⟨"h2", "building_status", "SOR 2025-02", "Budget summary text",
        [mkRat 45 100], [], mkRat 8 10, false⟩,
      ⟨"h3", "building_status", "SOR 2025-03", "Schedule notes",
        [mkRat 23 100], [], mkRat 7 10, false⟩]⟩

/-- The two results the witness query returns, ordered 0.92 then 0.45. -/
def resC3a : RetrievalResult :=
  ⟨"h1", "Building B was observed", mkRat 92 100, "building_status"⟩

/-- The second witness result. -/
def resC3b : RetrievalResult :=
  ⟨"h2", "Budget summary text", mkRat 45 100, "building_status"⟩

/-- C3 witness: on the 0.92/0.45/0.23 index with `top_k = 2` the query
succeeds with exactly the records ordered [0.92, 0.45]. -/
theorem query_ordering_witness :
    [resC3a, resC3b].length ≤ 2 ∧
    (∀ s, (none : Option String) = some s → ∀ r ∈ [resC3a, resC3b],
      r.section_type = s) ∧
    [resC3a, resC3b].Pairwise (fun a b => b.similarity ≤ a.similarity) ∧
    (rankCandidates [mkRat 1 1] (candidatesFor idxC3 none)).Pairwise strictRank :=
  query_ordering idxC3 [mkRat 1 1] none 2 [resC3a, resC3b] (by rfl)

/-! ### C7 — empty retrieval is not an error -/

theorem map_snd_filter {α β : Type} (q : β → Bool) (l : List (α × β)) :
    (l.filter fun p => q p.2).map Prod.snd = (l.map Prod.snd).filter q := by
  induction l with
  | nil => rfl
  | cons p t ih => cases hq : q p.2 <;> simp [List.filter_cons, hq, ih]

theorem candidatesFor_some_eq (idx : EmbeddingIndex) (st : String) :
    (candidatesFor idx (some st)).map Prod.snd =
      idx.records.filter (sectionMatches (some st)) := by
  rw [candidatesFor, map_snd_filter (sectionMatches (some st)) idx.records.enum,
    List.enum_map_snd]

/-- C7: `retrieve` is total (its type is a plain list, so `EmptyIndexError`
never reaches its callers) and returns the empty sequence both when no
record matches the requested section type and when `min_similarity`
filtering removes every candidate. -/
theorem retrieve_empty_is_nil (idx : EmbeddingIndex) (v : List ℚ) (st : String)
    (k : ℕ) (ms : ℚ) :
    ((idx.records.filter (sectionMatches (some st))).isEmpty = true →
      retrieve idx v st k ms = []) ∧
    ((∀ r ∈ idx.records, r.section_type = st → cosineSim v r.vector < ms) →
      retrieve idx v st k ms = []) := by
  constructor
  · intro h
    have hc : (candidatesFor idx (some st)).isEmpty = true := by
      rw [List.isEmpty_iff] at h ⊢
      have h2 := candidatesFor_some_eq idx st
      rw [h] at h2
      exact List.map_eq_nil_iff.mp h2
    rw [retrieve, EmbeddingIndex.query, if_pos hc]
  · intro h
    rw [retrieve]
    cases hq : EmbeddingIndex.query idx v (some st) k with
    | error e => rfl
    | ok rs =>
      obtain rfl := query_ok_eq hq
      rw [List.filter_eq_nil_iff]
      intro r hr
      obtain ⟨rec, hrec, hmatch, rfl⟩ := mem_queryResults hr
      rw [sectionMatches] at hmatch
      have hlt := h rec hrec (eq_of_beq hmatch)
      simp only [decide_eq_true_eq]
      exact not_le.mpr hlt

/-- C7 witness: retrieval over an index without matching records returns
the empty sequence. -/
theorem retrieve_empty_is_nil_witness :
    retrieve ⟨1, []⟩ [mkRat 1 1] "budget" 5 0 = [] :=
  (retrieve_empty_is_nil ⟨1, []⟩ [mkRat 1 1] "budget" 5 0).1 (by decide)

/-! ### C5 — prompt assembler caps -/

/-- C5: a successful `assemble` caps evidence at MAX_EVIDENCE_ITEMS and
exemplars at MAX_EXEMPLARS; what is kept together with what is dropped is a
permutation of the input, and every kept item ranks at least as high
(confidence resp. similarity) as every dropped item; moreover, in the
position-annotated splits, every dropped item either has a strictly lower
key than every kept one or ties with it at a strictly later original
position — ties are resolved in favour of the original order. -/
theorem assemble_caps (st : String) (pc : ProjectContext) (ev : List EvidenceItem)
    (ex : List RetrievalResult) (req : GenerationRequest)
    (h : assemble st pc ev ex = .ok req) :
    req.evidence.length = min MAX_EVIDENCE_ITEMS ev.length ∧
    req.exemplars.length = min MAX_EXEMPLARS ex.length ∧
    (∃ rest, (req.evidence ++ rest).Perm ev ∧
      ∀ x ∈ req.evidence, ∀ y ∈ rest, evidenceKey y ≤ evidenceKey x) ∧
    (∃ rest, (req.exemplars ++ rest).Perm ex ∧
      ∀ x ∈ req.exemplars, ∀ y ∈ rest, y.similarity ≤ x.similarity) ∧
    (∃ kept rest : List (Ranked EvidenceItem),
      req.evidence = kept.map Ranked.val ∧
      (kept ++ rest).Perm (rankBy evidenceKey ev) ∧
      (∀ x ∈ kept, x.key = evidenceKey x.val) ∧
      (∀ y ∈ rest, y.key = evidenceKey y.val) ∧
      ∀ x ∈ kept, ∀ y ∈ rest,
        y.key < x.key ∨ (x.key = y.key ∧ x.idx < y.idx)) ∧
    (∃ kept rest : List (Ranked RetrievalResult),
      req.exemplars = kept.map Ranked.val ∧
      (kept ++ rest).Perm (rankBy (fun r => r.similarity) ex) ∧
      (∀ x ∈ kept, x.key = x.val.similarity) ∧
      (∀ y ∈ rest, y.key = y.val.similarity) ∧
      ∀ x ∈ kept, ∀ y ∈ rest,
        y.key < x.key ∨ (x.key = y.key ∧ x.idx < y.idx)) := by
  rw [assemble] at h
  split at h
  · injection h with h
    subst h
    exact ⟨topKStable_length _ _ _, topKStable_length _ _ _,
      topKStable_split _ _ _, topKStable_split _ _ _,
      topKStable_stable_split _ _ _, topKStable_stable_split _ _ _⟩
  · exact absurd h (by simp)

/-- The i-th witness evidence item: the first ten confidences are distinct
(1.00 down to 0.91), the remaining fifteen all tie at 0.50, so the cap cuts
through the tie block. -/
def evItemC5 (i : ℕ) : EvidenceItem :=
  ⟨"e" ++ toString i, .documentField, "doc", "c",
    some (if i < 10 then mkRat (100 - i) 100 else mkRat 50 100)⟩

/-- Twenty-five evidence items whose last fifteen confidences tie. -/
def evC5 : List EvidenceItem := (List.range 25).map evItemC5

/-- The witness project context. -/
def pcC5 : ProjectContext := ⟨"Harbor View", "Site A", "2026-02-12", 5⟩

/-- The request the witness assembly produces. -/
def reqC5 : GenerationRequest :=
  ⟨"budget", pcC5, topKStable evidenceKey MAX_EVIDENCE_ITEMS evC5,
    topKStable (fun r => r.similarity) MAX_EXEMPLARS [], defaultInstructions⟩

/-- C5 witness: 25 supplied evidence items are capped to exactly 20, and
with fifteen items tied at confidence 0.50 across the cut, the kept ones
are precisely items 0..19 — the ten earliest of the tied block survive, so
ties resolve by original order. -/
theorem assemble_caps_witness :
    (reqC5.evidence.length = min MAX_EVIDENCE_ITEMS evC5.length ∧
    reqC5.exemplars.length = min MAX_EXEMPLARS ([] : List RetrievalResult).length ∧
    (∃ rest, (reqC5.evidence ++ rest).Perm evC5 ∧
      ∀ x ∈ reqC5.evidence, ∀ y ∈ rest, evidenceKey y ≤ evidenceKey x) ∧
    (∃ rest, (reqC5.exemplars ++ rest).Perm ([] : List RetrievalResult) ∧
      ∀ x ∈ reqC5.exemplars, ∀ y ∈ rest, y.similarity ≤ x.similarity) ∧
    (∃ kept rest : List (Ranked EvidenceItem),
      reqC5.evidence = kept.map Ranked.val ∧
      (kept ++ rest).Perm (rankBy evidenceKey evC5) ∧
      (∀ x ∈ kept, x.key = evidenceKey x.val) ∧
      (∀ y ∈ rest, y.key = evidenceKey y.val) ∧
      ∀ x ∈ kept, ∀ y ∈ rest,
        y.key < x.key ∨ (x.key = y.key ∧ x.idx < y.idx)) ∧
    (∃ kept rest : List (Ranked RetrievalResult),
      reqC5.exemplars = kept.map Ranked.val ∧
      (kept ++ rest).Perm (rankBy (fun r => r.similarity)
        ([] : List RetrievalResult)) ∧
      (∀ x ∈ kept, x.key = x.val.similarity) ∧
      (∀ y ∈ rest, y.key = y.val.similarity) ∧
      ∀ x ∈ kept, ∀ y ∈ rest,
        y.key < x.key ∨ (x.key = y.key ∧ x.idx < y.idx))) ∧
    reqC5.evidence.length = 20 ∧
    reqC5.evidence = (List.range 20).map evItemC5 :=
  ⟨assemble_caps "budget" pcC5 evC5 [] reqC5 (by rfl), by decide, by decide⟩

/-! ### C6 — collector output ordering -/

/-- Rank of an evidence variant in the fixed
images-then-documents-then-narrative layout. -/
def variantRank : EvidenceVariant → ℕ
  | .imageObservation => 0
  | .documentField => 1
  | .narrativeText => 2

theorem collectImages_variant (vision : String → Except VisionServiceError VisionAnalysis)
    (ids : List String) :
    ∀ e ∈ (collectImages vision ids).1, e.variant = .imageObservation := by
  induction ids with
  | nil => intro e he; simp [collectImages] at he
  | cons i rest ih =>
    intro e he
    cases h : vision i with
    | ok a =>
      simp only [collectImages, h] at he
      rcases List.mem_append.mp he with he | he
      · rw [imageItems] at he
        rcases List.mem_cons.mp he with rfl | he
        · rfl
        · obtain ⟨c, _, rfl⟩ := List.mem_map.mp he
          rfl
      · exact ih e he
    | error er =>
      simp only [collectImages, h] at he
      exact ih e he

theorem collectDocuments_variant
    (docParse : String → String → Except ParseError ParsedDocument)
    (st : String) (ids : List String) :
    ∀ e ∈ (collectDocuments docParse st ids).1, e.variant = .documentField := by
  induction ids with
  | nil => intro e he; simp [collectDocuments] at he
  | cons d rest ih =>
    intro e he
    cases h : docParse st d with
    | ok p =>
      simp only [collectDocuments, h] at he
      rcases List.mem_append.mp he with he | he
      · obtain ⟨f, _, rfl⟩ := List.mem_map.mp he
        rfl
      · exact ih e he
    | error er =>
      simp only [collectDocuments, h] at he
      exact ih e he

theorem narrativeItems_variant (nt : String) :
    ∀ e ∈ narrativeItems nt, e.variant = .narrativeText := by
  intro e he
  rw [narrativeItems] at he
  split at he
  · simp at he
  · rcases List.mem_singleton.mp he with rfl
    rfl

theorem pairwise_rank_of_const {l : List EvidenceItem} {v : EvidenceVariant}
    (h : ∀ e ∈ l, e.variant = v) :
    l.Pairwise (fun a b => variantRank a.variant ≤ variantRank b.variant) := by
  induction l with
  | nil => exact List.Pairwise.nil
  | cons a t ih =>
    refine List.Pairwise.cons ?_ (ih fun e he => h e (List.mem_cons_of_mem a he))
    intro b hb
    rw [h a (List.mem_cons_self a t), h b (List.mem_cons_of_mem a hb)]

theorem collectImages_eq (vision : String → Except VisionServiceError VisionAnalysis)
    (ids : List String) :
    (collectImages vision ids).1 =
      (ids.map fun i =>
        match vision i with
        | .ok a => imageItems i a
        | .error _ => []).flatten := by
  induction ids with
  | nil => rfl
  | cons i rest ih => cases h : vision i <;> simp [collectImages, h, ih]

theorem collectDocuments_eq
    (docParse : String → String → Except ParseError ParsedDocument)
    (st : String) (ids : List String) :
    (collectDocuments docParse st ids).1 =
      (ids.map fun d =>
        match docParse st d with
        | .ok p => docItems d p
        | .error _ => []).flatten := by
  induction ids with
  | nil => rfl
  | cons d rest ih => cases h : docParse st d <;> simp [collectDocuments, h, ih]

/-- C6: `collect` output is the image-derived items (one batch per image
id, in input order), then the document-derived items (in input order), then
the narrative items; the variant ranks are monotone along the output, and a
non-empty narrative contributes exactly one NarrativeText item. -/
theorem collect_ordering (vision : String → Except VisionServiceError VisionAnalysis)
    (docParse : String → String → Except ParseError ParsedDocument)
    (st : String) (image_ids document_ids : List String) (narrative : String) :
    (collect vision docParse st image_ids document_ids narrative).1 =
      (collectImages vision image_ids).1 ++
        (collectDocuments docParse st document_ids).1 ++ narrativeItems narrative ∧
    (collectImages vision image_ids).1 =
      (image_ids.map fun i =>
        match vision i with
        | .ok a => imageItems i a
        | .error _ => []).flatten ∧
    (collectDocuments docParse st document_ids).1 =
      (document_ids.map fun d =>
        match docParse st d with
        | .ok p => docItems d p
        | .error _ => []).flatten ∧
    ((collect vision docParse st image_ids document_ids narrative).1).Pairwise
      (fun a b => variantRank a.variant ≤ variantRank b.variant) ∧
    (narrative ≠ "" →
      ((collect vision docParse st image_ids document_ids narrative).1.filter
        fun e => e.variant == .narrativeText) =
        [⟨"narrative", .narrativeText, "inspector narrative", narrative, none⟩]) := by
  have hout : (collect vision docParse st image_ids document_ids narrative).1 =
      (collectImages vision image_ids).1 ++
        (collectDocuments docParse st document_ids).1 ++ narrativeItems narrative := rfl
  have hi := collectImages_variant vision image_ids
  have hd := collectDocuments_variant docParse st document_ids
  have hn := narrativeItems_variant narrative
  refine ⟨hout, collectImages_eq vision image_ids,
    collectDocuments_eq docParse st document_ids, ?_, ?_⟩
  · rw [hout]
    refine List.pairwise_append.mpr ⟨List.pairwise_append.mpr
      ⟨pairwise_rank_of_const hi, pairwise_rank_of_const hd, ?_⟩,
      pairwise_rank_of_const hn, ?_⟩
    · intro a ha b hb
      rw [hi a ha, hd b hb]
      exact Nat.zero_le 1
    · intro a ha b hb
      rw [hn b hb]
      rcases List.mem_append.mp ha with ha | ha
      · rw [hi a ha]; exact Nat.zero_le 2
      · rw [hd a ha]; exact Nat.le_succ 1
  · intro hne
    rw [hout, List.filter_append, List.filter_append]
    have h1 : (collectImages vision image_ids).1.filter
        (fun e => e.variant == EvidenceVariant.narrativeText) = [] := by
      refine List.filter_eq_nil_iff.mpr fun e he => ?_
      rw [hi e he]
      decide
    have h2 : (collectDocuments docParse st document_ids).1.filter
        (fun e => e.variant == EvidenceVariant.narrativeText) = [] := by
      refine List.filter_eq_nil_iff.mpr fun e he => ?_
      rw [hd e he]
      decide
    rw [h1, h2, narrativeItems, if_neg hne]
    rfl

/-- A deterministic Vision test double: fails on "bad.jpg", otherwise one
condition per image. -/
def visionW : String → Except VisionServiceError VisionAnalysis := fun i =>
  if i = "bad.jpg" then .error .timeout
  else .ok ⟨i, "exterior view", "commercial",
    [⟨"roof", "ponding", "moderate", "north"⟩], ["brick"], [], []⟩

/-- A deterministic Parser test double: fails on "bad.pdf". -/
def docParseW : String → String → Except ParseError ParsedDocument := fun _ d =>
  if d = "bad.pdf" then .error .corruptedFile
  else .ok ⟨"prior_sor", "2026-01-15", [("percent_complete", "67")]⟩

/-- C6 witness: a collection with one image, one document and a non-empty
narrative carries exactly one NarrativeText item. -/
theorem collect_ordering_witness :
    ((collect visionW docParseW "building_status" ["a.jpg"] ["d.pdf"] "note").1.filter
      fun e => e.variant == .narrativeText) =
      [⟨"narrative", .narrativeText, "inspector narrative", "note", none⟩] :=
  (collect_ordering visionW docParseW "building_status" ["a.jpg"] ["d.pdf"]
    "note").2.2.2.2 (by decide)

/-! ### C8 — partial failure inside a batch -/

/-- C8: when one of two image analyses fails but the other and the document
parse succeed, `collect` still returns the successful image's observations
and the document's fields, with exactly one warning naming the failed
image. -/
theorem collect_partial_failure
    (vision : String → Except VisionServiceError VisionAnalysis)
    (docParse : String → String → Except ParseError ParsedDocument)
    (st i1 i2 d : String) (e : VisionServiceError) (a : VisionAnalysis)
    (p : ParsedDocument) (h1 : vision i1 = .error e) (h2 : vision i2 = .ok a)
    (h3 : docParse st d = .ok p) :
    collect vision docParse st [i1, i2] [d] "" =
      (imageItems i2 a ++ docItems d p,
        [⟨i1, "image analysis failed; item skipped"⟩]) := by
  simp [collect, collectImages, collectDocuments, h1, h2, h3, narrativeItems]

/-- The analysis the witness double returns for "a.jpg". -/
def visionAnalysisW : VisionAnalysis :=
  ⟨"a.jpg", "exterior view", "commercial",
    [⟨"roof", "ponding", "moderate", "north"⟩], ["brick"], [], []⟩

/-- The parsed document the witness double returns for "d.pdf". -/
def parsedDocW : ParsedDocument :=
  ⟨"prior_sor", "2026-01-15", [("percent_complete", "67")]⟩

/-- C8 witness: two image ids (the first failing) and one document id yield
the surviving image's observations, the document's fields, and one warning
for the failed image. -/
theorem collect_partial_failure_witness :
    collect visionW docParseW "building_status" ["bad.jpg", "a.jpg"] ["d.pdf"] "" =
      (imageItems "a.jpg" visionAnalysisW ++ docItems "d.pdf" parsedDocW,
        [⟨"bad.jpg", "image analysis failed; item skipped"⟩]) :=
  collect_partial_failure visionW docParseW "building_status" "bad.jpg" "a.jpg"
    "d.pdf" .timeout visionAnalysisW parsedDocW (by rfl) (by rfl) (by rfl)

/-! ### C1 — grounding / no-fabrication of citations -/

theorem findRef_label {req : GenerationRequest} {m : String} {ref : EvidenceRef}
    (h : findRef req m = some ref) : ref.label = m := by
  rw [findRef] at h
  have hb := List.find?_some h
  exact eq_of_beq hb

theorem findRef_mem {req : GenerationRequest} {m : String} {ref : EvidenceRef}
    (h : findRef req m = some ref) : ref ∈ knownRefs req := by
  rw [findRef] at h
  exact List.mem_of_find?_eq_some h

theorem draftRefs_known (req : GenerationRequest) (raw : List RawToken) :
    ∀ ref ∈ draftRefs req raw, ref ∈ knownRefs req := by
  intro ref h
  obtain ⟨t, _, hf⟩ := List.mem_filterMap.mp h
  cases t with
  | text s => simp at hf
  | citation m => exact findRef_mem hf

/-- C1: after synthesis, every citation marker left in the content is
matched by a reference whose source id comes from the evidence/exemplars of
the originating request; every reference points into the request's known
references; and a marker matching no known evidence item yields no
reference at all (it only yields a warning) — references are never
fabricated. -/
theorem synthesize_no_fabrication (req : GenerationRequest) (raw : List RawToken) :
    (∀ m ∈ markersOf (synthesize req raw).1.content,
      ∃ ref ∈ (synthesize req raw).1.evidence_references,
        ref.label = m ∧ ref.source_id ∈ knownSourceIds req) ∧
    (∀ ref ∈ (synthesize req raw).1.evidence_references,
      ref ∈ knownRefs req ∧ ref.source_id ∈ knownSourceIds req) ∧
    (∀ m ∈ markersOf raw, findRef req m = none →
      (∀ ref ∈ (synthesize req raw).1.evidence_references, ref.label ≠ m) ∧
      ("unknown citation marker dropped: " ++ m) ∈ (synthesize req raw).2) := by
  have hrefs : (synthesize req raw).1.evidence_references = draftRefs req raw := rfl
  have hcontent : (synthesize req raw).1.content = draftContent req raw := rfl
  have hwarn : (synthesize req raw).2 = synthWarnings req raw := rfl
  rw [hrefs, hcontent, hwarn]
  refine ⟨?_, ?_, ?_⟩
  · intro m hm
    obtain ⟨t, ht, hf⟩ := List.mem_filterMap.mp hm
    cases t with
    | text s => simp [markersOf] at hf
    | citation m2 =>
      have hm2 : m2 = m := by
        simpa [markersOf] using hf
      subst hm2
      have htc := List.mem_filter.mp ht
      have hsome : (findRef req m2).isSome = true := by
        simpa [draftContent] using htc.2
      obtain ⟨ref, href⟩ := Option.isSome_iff_exists.mp hsome
      refine ⟨ref, ?_, findRef_label href, ?_⟩
      · exact List.mem_filterMap.mpr ⟨.citation m2, htc.1, href⟩
      · exact List.mem_map_of_mem _ (findRef_mem href)
  · intro ref h
    have h1 := draftRefs_known req raw ref h
    exact ⟨h1, List.mem_map_of_mem _ h1⟩
  · intro m hm hnone
    constructor
    · intro ref href heq
      obtain ⟨t, _, hf⟩ := List.mem_filterMap.mp href
      cases t with
      | text s => simp at hf
      | citation m2 =>
        have hf2 : findRef req m2 = some ref := hf
        have h2 : ref.label = m2 := findRef_label hf2
        have hm2 : m2 = m := by rw [← h2, heq]
        rw [hm2, hnone] at hf2
        exact Option.noConfusion hf2
    · obtain ⟨t, ht, hf⟩ := List.mem_filterMap.mp hm
      cases t with
      | text s => simp [markersOf] at hf
      | citation m2 =>
        have hm2 : m2 = m := by
          simpa [markersOf] using hf
        subst hm2
        refine List.mem_filterMap.mpr ⟨.citation m2, ht, ?_⟩
        simp [synthWarnings, hnone]

/-- The witness request: one image evidence item, no exemplars. -/
def reqC1 : GenerationRequest :=
  ⟨"building_status", ⟨"Harbor View", "Site A", "2026-02-12", 5⟩,
    [⟨"img-1", .imageObservation, "IMG_001.jpg", "mortar deterioration",
      some (mkRat 9 10)⟩], [], defaultInstructions⟩

/-- The witness raw response: one known marker and one unknown marker. -/
def rawC1 : List RawToken :=
  [.text "During the visit, ", .citation "IMG_001.jpg", .citation "ghost.jpg"]

/-- C1 witness: the surviving marker "IMG_001.jpg" maps to a reference
whose source id comes from the request's evidence. -/
theorem synthesize_no_fabrication_witness :
    ∃ ref ∈ (synthesize reqC1 rawC1).1.evidence_references,
      ref.label = "IMG_001.jpg" ∧ ref.source_id ∈ knownSourceIds reqC1 :=
  (synthesize_no_fabrication reqC1 rawC1).1 "IMG_001.jpg" (by decide)
